import Mathlib

/-!
# Verification of the RossROS asyncio dataflow framework and its networking layer

Shallow embedding of `rossros_asyncio.py` and `rossros_networking.py`:

* Python runtime values that flow through buses are modelled by the inductive
  type `Val` (numbers are exact: `Int` for Python ints, `ℚ` for the float
  values the claims mention); Python truthiness and the `>= 0` comparison are
  modelled by `pyTruthy` and `pyGeZero` (a comparison that would raise
  `TypeError` in Python returns `Except.error`).
* The local `Bus` class (`rossros_asyncio.py`, lines 54-68) is a record with a
  `message` and a `name`; `get_message` / `set_message` are pure field access
  and functional update (the asyncio variant has no locks, and between
  suspension points a task runs uninterrupted, so a sequential model is
  faithful).
* `ConsumerProducer.checkTerminationBuses`, `collectBusesToValues`,
  `dealValuesToBuses` and the `__call__` loop are embedded as pure functions;
  the loop is given fuel and an explicit event trace so that ordering claims
  can be stated.
* The key/value `Server`/`Client` pair of `rossros_networking.py` is embedded
  with the server's `state` dict as an association list and one pure function
  `handleCommand` for the per-request dispatch of `handle_client` — including
  its `set` branch, which calls the async `Server.set` without `await`
  (line 23) and therefore never performs the store update it acknowledges.

Sequences of buses are modelled as Lean lists.  The upstream `rossros.py`
helper `ensureTuple` (not part of this tree) only normalises a single bus
into a one-element tuple before the loops run; passing `List Bus` everywhere
models the post-normalisation sequence, and a singleton list models a single
bus argument.
-/

/-- Errors a modelled Python expression can raise. -/
inductive PyError where
  | typeError
  | indexError
deriving DecidableEq, Repr

deriving instance DecidableEq for Except

/-- Python runtime values carried on buses and over the wire.  Floats are
modelled by their exact rational value. -/
inductive Val where
  | none
  | bool (b : Bool)
  | int (n : Int)
  | rat (q : ℚ)
  | str (s : String)
  | tuple (elems : List Val)

/-- Python truthiness (`bool(v)`): `None` and `False` are falsy, numbers are
truthy iff non-zero, strings and tuples iff non-empty. -/
def pyTruthy : Val → Bool
  | .none => false
  | .bool b => b
  | .int n => n != 0
  | .rat q => q != 0
  | .str s => s != ""
  | .tuple es => !es.isEmpty

/-- Python `isinstance(v, tuple)`. -/
def Val.isTuple : Val → Bool
  | .tuple _ => true
  | _ => false

/-- Python `v >= 0`: defined for numbers (`bool` counts as `0`/`1`),
`TypeError` for `None`, strings and tuples. -/
def pyGeZero : Val → Except PyError Bool
  | .none => .error .typeError
  | .bool b => .ok (0 ≤ (if b then 1 else 0 : Int))
  | .int n => .ok (0 ≤ n)
  | .rat q => .ok (0 ≤ q)
  | .str _ => .error .typeError
  | .tuple _ => .error .typeError

/-- The per-value termination test `tbv and tbv >= 0`
(`rossros_asyncio.py`, line 173): Python `and` short-circuits, so a falsy
value never reaches the comparison. -/
def triggerStep (v : Val) : Except PyError Bool :=
  if pyTruthy v then pyGeZero v else .ok false

/-- `ConsumerProducer.checkTerminationBuses` (lines 166-174) applied to the
collected termination-bus values: returns `true` as soon as one value
triggers; falling off the loop returns Python `None`, which the caller's
`if` treats as `false`. -/
def checkTerminationBuses : List Val → Except PyError Bool
  | [] => .ok false
  | v :: rest =>
    match triggerStep v with
    | .error e => .error e
    | .ok true => .ok true
    | .ok false => checkTerminationBuses rest

/-- The lock-free `Bus` of `rossros_asyncio.py` (lines 54-68). -/
structure Bus where
  message : Val
  name : String

/-- `Bus.get_message` (lines 63-65): returns the current message. -/
def Bus.get_message (b : Bus) : Val :=
  b.message

/-- `Bus.set_message` (lines 67-68): replaces the current message. -/
def Bus.set_message (b : Bus) (message : Val) : Bus :=
  { b with message := message }

/-- `ConsumerProducer.collectBusesToValues` (lines 117-130): read every bus
in order into a list of values. -/
def collectBusesToValues (buses : List Bus) : List Val :=
  buses.map Bus.get_message

/-- One iteration of the dealing loop body `buses[idx].set_message(v, ...)`
(`rossros_asyncio.py`, line 161): an out-of-range index raises `IndexError`,
otherwise bus `idx` is functionally updated. -/
def setBusAt (buses : List Bus) (idx : Nat) (v : Val) : Except PyError (List Bus) :=
  if h : idx < buses.length then
    .ok (buses.set idx ((buses.get ⟨idx, h⟩).set_message v))
  else
    .error .indexError

/-- The `for idx, v in enumerate(values)` loop of `dealValuesToBuses`
(lines 160-161), writing value `i` of the list into bus `idx + i`. -/
def enumerateDeal : List Bus → Nat → List Val → Except PyError (List Bus)
  | buses, _, [] => .ok buses
  | buses, idx, v :: vs =>
    match setBusAt buses idx v with
    | .error e => .error e
    | .ok buses2 => enumerateDeal buses2 (idx + 1) vs

/-- The value-normalisation step of `ConsumerProducer.dealValuesToBuses`
(lines 147-158): with exactly one bus the whole result is wrapped into a
one-element tuple; with several buses a tuple result is kept as is and a
non-tuple result is replicated once per bus. -/
def dealtValues (values : Val) (buses : List Bus) : List Val :=
  if buses.length = 1 then
    [values]
  else
    match values with
    | .tuple vs => vs
    | v => List.replicate buses.length v

/-- `ConsumerProducer.dealValuesToBuses` (lines 138-161): normalise the
transform result against the bus count, then deal the values into the buses
in index order. -/
def dealValuesToBuses (values : Val) (buses : List Bus) : Except PyError (List Bus) :=
  enumerateDeal buses 0 (dealtValues values buses)

/-- Observable actions of one cycle of a node's `__call__` loop, used to
state ordering properties.  `inputRead`/`outputWrite` refer to the input and
output buses; the reads of the termination buses are part of `termCheck`. -/
inductive Event where
  | termCheck
  | inputRead (busIdx : Nat)
  | transformCall
  | outputWrite (busIdx : Nat)
deriving DecidableEq, Repr

/-- The per-node attributes stored by the `ConsumerProducer` constructor
(inherited from the base class; the spec's Node data model, §3). -/
structure NodeState where
  input_buses : List Bus
  output_buses : List Bus
  termination_buses : List Bus

/-- One iteration of `ConsumerProducer.__call__` (`rossros_asyncio.py`,
lines 92-111): check the termination buses first and exit if triggered;
otherwise collect the input values, apply the transform `f`, and deal the
result into the output buses.  Returns the emitted event trace and either an
error or (terminated?, next state). -/
def nodeCycle (f : List Val → Val) (st : NodeState) :
    List Event × Except PyError (Bool × NodeState) :=
  match checkTerminationBuses (collectBusesToValues st.termination_buses) with
  | .error e => ([.termCheck], .error e)
  | .ok true => ([.termCheck], .ok (true, st))
  | .ok false =>
    let input_values := collectBusesToValues st.input_buses
    let readEvents := (List.range st.input_buses.length).map Event.inputRead
    let output_values := f input_values
    match dealValuesToBuses output_values st.output_buses with
    | .error e => (Event.termCheck :: (readEvents ++ [Event.transformCall]), .error e)
    | .ok buses2 =>
      let writeEvents := (List.range (dealtValues output_values st.output_buses).length).map Event.outputWrite
      (Event.termCheck :: (readEvents ++ Event.transformCall :: writeEvents),
        .ok (false, { st with output_buses := buses2 }))

/-- The `while True` loop of `__call__`, cut off after `fuel` iterations
(the loop itself is unbounded); returns the final node state and the traces
of the executed cycles. -/
def runNode (f : List Val → Val) : Nat → NodeState → Except PyError (NodeState × List (List Event))
  | 0, st => .ok (st, [])
  | fuel + 1, st =>
    match nodeCycle f st with
    | (_, .error e) => .error e
    | (evs, .ok (true, st2)) => .ok (st2, [evs])
    | (evs, .ok (false, st2)) =>
      match runNode f fuel st2 with
      | .error e => .error e
      | .ok (st3, trace) => .ok (st3, evs :: trace)

/-- `Timer.timer` (`rossros_asyncio.py`, lines 400-408) with the current
time passed explicitly: a truthy (non-zero) duration returns the elapsed
time relative to the end time; a zero duration returns `False`. -/
def timer (now t_start duration : ℚ) : Val :=
  if duration ≠ 0 then
    .rat (now - t_start - duration)
  else
    .bool false

/-- The `Server.state` dict of `rossros_networking.py` (line 13), as an
association list with unique keys kept by insertion order. -/
abbrev ServerState := List (String × Val)

/-- Python dict assignment `state[key] = value`: replace the value of an
existing key in place, or append a new entry. -/
def dictSet : ServerState → String → Val → ServerState
  | [], key, value => [(key, value)]
  | (k, v) :: rest, key, value =>
    if k = key then (key, value) :: rest else (k, v) :: dictSet rest key value

/-- Python `state.get(key, None)` without the default: the stored value, if
any. -/
def dictGet : ServerState → String → Option Val
  | [], _ => Option.none
  | (k, v) :: rest, key => if k = key then some v else dictGet rest key

/-- `Server.set` (`rossros_networking.py`, lines 36-37): the body of the
coroutine, i.e. the store update `self.state[key] = value` as executed when
the coroutine is awaited (as `NetBus.set_message` does with
`await self.server.set(...)`). -/
def Server.set (state : ServerState) (key : String) (value : Val) : ServerState :=
  dictSet state key value

/-- `Server.get` (lines 39-40): `self.state.get(key, None)`. -/
def Server.get (state : ServerState) (key : String) : Val :=
  (dictGet state key).getD Val.none

/-- A decoded request, as dispatched on `command['action']` by
`Server.handle_client`. -/
inductive Command where
  | set (key : String) (value : Val)
  | get (key : String)
  | unknown (action : String)

/-- A response object as built by `Server.handle_client`: `ok` encodes
`{'status': 'OK'}`, `okValue v` encodes `{'status': 'OK', 'value': v}` (with
`Val.none` for JSON null), `error m` encodes `{'status': 'ERROR',
'message': m}`. -/
inductive Response where
  | ok
  | okValue (value : Val)
  | error (message : String)

/-- The per-request dispatch of `Server.handle_client` (lines 20-33): the
`set` branch calls the async `Server.set` WITHOUT `await` (line 23), so the
coroutine object is created and discarded, the store is never updated, and
the server nonetheless answers `OK`; the `get` branch does await
`Server.get` (line 26) and answers `OK` with the stored value or null;
anything else answers an `ERROR`.  The server state is shared by all
connections, so consecutive requests over fresh connections chain through
it. -/
def handleCommand : Command → ServerState → ServerState × Response
  | .set _ _, state => (state, .ok)
  | .get key, state => (state, .okValue (Server.get state key))
  | .unknown _, state => (state, .error "Unknown command")

/-- `Client.send_command` (lines 56-63): open a fresh connection to whatever
responder is listening on `(host, port)`, send one command, and return the
decoded response.  The responder is a parameter so that the client's
behaviour can be stated for any server; `handleCommand` is the responder of
this repository's `Server`. -/
def Client.send_command (respond : Command → ServerState → ServerState × Response)
    (state : ServerState) (command : Command) : ServerState × Response :=
  respond command state

/-- `Client.set` (lines 65-67): send a set command; the response is
discarded and the method returns `None` (here: only the server's next state
is produced, no part of the response). -/
def Client.set (respond : Command → ServerState → ServerState × Response)
    (state : ServerState) (key : String) (value : Val) : ServerState :=
  (Client.send_command respond state (.set key value)).1

/-- `Client.get` (lines 69-72): send a get command and return
`response.get('value')`: the response's `value` field, or `None` when the
response carries no `value` field. -/
def Client.get (respond : Command → ServerState → ServerState × Response)
    (state : ServerState) (key : String) : Val :=
  match (Client.send_command respond state (.get key)).2 with
  | .okValue value => value
  | _ => Val.none

/-- Number of decimal digits of `n` (0 for `n = 0`); fuel-based so it
reduces definitionally. -/
def numDigitsGo : Nat → Nat → Nat
  | 0, _ => 0
  | fuel + 1, n => if n = 0 then 0 else numDigitsGo fuel (n / 10) + 1

/-- Number of decimal digits of a positive natural (0 for `n = 0`). -/
def numDigits (n : Nat) : Nat :=
  numDigitsGo (n + 1) n

/-- Decimal rendering of a natural number. -/
def natToStringGo : Nat → Nat → String → String
  | 0, _, acc => acc
  | fuel + 1, n, acc =>
    if n = 0 then acc
    else natToStringGo fuel (n / 10) (String.mk [Nat.digitChar (n % 10)] ++ acc)

/-- Decimal rendering of a natural number. -/
def natToString (n : Nat) : String :=
  if n = 0 then "0" else natToStringGo (n + 1) n ""

/-- Round `num / den` (with `den` positive) to the nearest natural, ties
to even: the rounding CPython's float formatting applies to the (here
exactly represented) value. -/
def roundHalfEvenND (num den : Nat) : Nat :=
  let f := num / den
  let r2 := 2 * (num % den)
  if r2 < den then f
  else if den < r2 then f + 1
  else if f % 2 = 0 then f else f + 1

/-- Smallest `k ≥ k0` with `num * 10 ^ k ≥ den`, searched with fuel. -/
def smallExpGo : Nat → Nat → Nat → Nat → Nat
  | 0, k, _, _ => k
  | fuel + 1, k, num, den =>
    if den ≤ num * 10 ^ k then k else smallExpGo fuel (k + 1) num den

/-- Decimal exponent of the positive rational `num / den`: the integer `e`
with `10 ^ e ≤ num / den < 10 ^ (e + 1)`. -/
def decExpND (num den : Nat) : ℤ :=
  if den ≤ num then (numDigits (num / den) : ℤ) - 1
  else -(smallExpGo (numDigits den + 2) 1 num den : ℤ)

/-- The 4-significant-digit mantissa (in `[1000, 9999]`) and decimal
exponent of the positive rational `num / den`: round `num / den` scaled by
`10 ^ (3 - e)` half-to-even; a rounding overflow to `10000` bumps the
exponent. -/
def mantissaExp (num den : Nat) : Nat × ℤ :=
  let e0 := decExpND num den
  let m :=
    if 3 ≤ e0 then roundHalfEvenND num (den * 10 ^ (e0 - 3).toNat)
    else roundHalfEvenND (num * 10 ^ ((3 : ℤ) - e0).toNat) den
  if m = 10000 then (1000, e0 + 1) else (m, e0)

/-- Drop trailing `'0'` characters (the `g` format strips trailing zeros of
the fractional part). -/
def stripZeros (ds : List Char) : List Char :=
  (ds.reverse.dropWhile (fun c => c == '0')).reverse

/-- Two-or-more-digit exponent field of the `g` scientific form. -/
def expDigits (ae : Nat) : String :=
  if ae < 10 then "0" ++ natToString ae else natToString ae

/-- CPython's `"{0:.4g}".format(x)` on the exact value `num / den`: round
to 4 significant decimal digits (ties to even), then use fixed notation
when the decimal exponent is in `[-4, 4)` and scientific notation
otherwise, in both cases stripping trailing fractional zeros. -/
def format4gND (num : ℤ) (den : Nat) : String :=
  if num = 0 then "0"
  else
    let sign := if num < 0 then "-" else ""
    let ne := mantissaExp num.natAbs den
    let n := ne.1
    let e := ne.2
    let ds : List Char :=
      [Nat.digitChar (n / 1000), Nat.digitChar (n / 100 % 10),
        Nat.digitChar (n / 10 % 10), Nat.digitChar (n % 10)]
    if -4 ≤ e ∧ e < 4 then
      if 0 ≤ e then
        let k := e.toNat + 1
        let intPart := String.mk (ds.take k)
        let frac := stripZeros (ds.drop k)
        if frac.isEmpty then sign ++ intPart
        else sign ++ intPart ++ "." ++ String.mk frac
      else
        let frac := stripZeros (List.replicate (e.natAbs - 1) '0' ++ ds)
        sign ++ "0." ++ String.mk frac
    else
      let frac := stripZeros (ds.drop 1)
      let mant :=
        if frac.isEmpty then String.mk (ds.take 1)
        else String.mk (ds.take 1) ++ "." ++ String.mk frac
      let esign := if e < 0 then "-" else "+"
      sign ++ mant ++ "e" ++ esign ++ expDigits e.natAbs

/-- `"{0:.4g}".format` on an exact rational, through its reduced
numerator and denominator. -/
def format4gQ (q : ℚ) : String :=
  format4gND q.num q.den

/-- A run of `n` space characters. -/
def spaces (n : Nat) : String :=
  String.mk (List.replicate n ' ')

/-- The numeric branch of `Printer.print_bus` (lines 339-342): format with
4 significant digits and prepend a space when the value is not negative.
Python's `bool` is a number here (`True` formats as `1`). -/
def formatNum (q : ℚ) : String :=
  let msg_str := format4gQ q
  if 0 ≤ q then " " ++ msg_str else msg_str

/-- The per-message rendering of `Printer.print_bus` (lines 335-342):
`None` becomes the text `"None"`, a string is passed through verbatim, and
anything else is assumed to be a number (a tuple makes `format` raise
`TypeError`). -/
def formatMsg : Val → Except PyError String
  | .none => .ok "None"
  | .str s => .ok s
  | .bool b => .ok (formatNum (if b then 1 else 0))
  | .int n => .ok (formatNum n)
  | .rat q => .ok (formatNum q)
  | .tuple _ => .error .typeError

/-- `Printer.print_bus` (lines 331-349): starting from the configured
print prefix, append for each message a separating space, the rendered
message, and `max(0, 11 - len(msg_str))` trailing spaces (the
`range(1, 12 - len(msg_str))` padding loop), producing the printed line. -/
def print_bus (out : String) : List Val → Except PyError String
  | [] => .ok out
  | msg :: rest =>
    match formatMsg msg with
    | .error e => .error e
    | .ok msg_str =>
      print_bus (out ++ " " ++ msg_str ++ spaces (11 - msg_str.length)) rest

/-- The column layout asserted by the spec's Printer sentence, for
comparison with `print_bus` (which is translated from the code): each
rendered value LEFT-padded with spaces to 12 characters. -/
def claimLeftPadColumn (msg_str : String) : String :=
  spaces (12 - msg_str.length) ++ msg_str

/-- The printed line under the spec's reading of the Printer layout: the
prefix followed by one left-padded 12-character column per message. -/
def claimPrinterLine (pfx : String) (cols : List String) : String :=
  pfx ++ String.join (cols.map claimLeftPadColumn)

theorem dictGet_dictSet_self (s : ServerState) (k : String) (v : Val) :
    dictGet (dictSet s k v) k = some v := by
  induction s with
  | nil => simp [dictSet, dictGet]
  | cons p rest ih =>
    obtain ⟨k', v'⟩ := p
    by_cases h : k' = k <;> simp [dictSet, dictGet, h, ih]

theorem Server_get_set_self (s : ServerState) (k : String) (v : Val) :
    Server.get (Server.set s k v) k = v := by
  simp [Server.get, Server.set, dictGet_dictSet_self]

theorem enumerateDeal_cons (vs : List Val) :
    ∀ (b : Bus) (bs : List Bus) (idx : Nat),
      enumerateDeal (b :: bs) (idx + 1) vs =
        (enumerateDeal bs idx vs).map (fun res => b :: res) := by
  induction vs with
  | nil => intro b bs idx; rfl
  | cons v vs ih =>
    intro b bs idx
    by_cases h : idx < bs.length
    · have h2 : idx + 1 < (b :: bs).length := by simp; omega
      simp [enumerateDeal, setBusAt, h, h2, ih]
    · have h2 : ¬ idx + 1 < (b :: bs).length := by simp; omega
      simp [enumerateDeal, setBusAt, h, h2, Except.map]

theorem enumerateDeal_zero (vs : List Val) :
    ∀ (buses : List Bus), vs.length ≤ buses.length →
      enumerateDeal buses 0 vs =
        .ok (List.zipWith (fun b v => b.set_message v) buses vs ++
              buses.drop vs.length) := by
  induction vs with
  | nil => intro buses _; simp [enumerateDeal]
  | cons v vs ih =>
    intro buses h
    match buses with
    | [] => simp at h
    | b :: bs =>
      have hb : (0 : Nat) < (b :: bs).length := by simp
      simp only [enumerateDeal, setBusAt, dif_pos hb]
      rw [show ((b :: bs).set 0 (((b :: bs).get ⟨0, hb⟩).set_message v)) =
            (b.set_message v :: bs) from rfl]
      rw [enumerateDeal_cons, ih bs (by simpa using h)]
      simp [Except.map]

theorem zipWith_set_message_replicate :
    ∀ (bs : List Bus) (v : Val),
      List.zipWith (fun b w => b.set_message w) bs (List.replicate bs.length v) =
        bs.map (fun b => b.set_message v) := by
  intro bs v
  induction bs with
  | nil => rfl
  | cons b rest ih => simp [List.replicate, ih]

theorem spaces_length (n : Nat) : (spaces n).length = n := by
  simp [spaces, String.length]

theorem zipWith_getElem?_set_message (bs : List Bus) (vs : List Val) :
    ∀ i : Nat,
      (List.zipWith (fun b v => b.set_message v) bs vs)[i]? =
        (bs[i]?.bind fun b => vs[i]?.map fun v => b.set_message v) := by
  induction bs generalizing vs with
  | nil => intro i; simp
  | cons b bs ih =>
    intro i
    match vs with
    | [] => simp
    | v :: vs =>
      match i with
      | 0 => simp
      | i + 1 => simpa using ih vs i

/-- C8: for every local bus `b` and value `v`, `set_message` followed by
`get_message` returns exactly `v`; both operations are total functions of
the bus, so neither can fail. -/
theorem bus_set_get_round_trip : ∀ (b : Bus) (v : Val),
    (b.set_message v).get_message = v := by
  intro b v
  rfl

/-- C2 (counterexample): evaluated on the bus value `0`, the termination
check of `checkTerminationBuses` yields `False`, not `True` as the claim
states: Python's `and` short-circuits on the falsy `0` before the `>= 0`
comparison is reached. -/
theorem checkTerminationBuses_zero_not_triggered :
    checkTerminationBuses [Val.int 0] = .ok false ∧
    (Except.ok false : Except PyError Bool) ≠ .ok true := by
  exact ⟨rfl, by simp⟩

/-- C2 (amended): the trigger test of `checkTerminationBuses` succeeds for
a value `v` iff `v` is truthy and the comparison `v >= 0` returns true; in
particular it is false for `-0.5`, false (not true) for `0` since `0` is
falsy, and false for `False` and `None`. -/
theorem checkTerminationBuses_trigger_iff :
    (∀ v, checkTerminationBuses [v] = .ok true ↔
      (pyTruthy v = true ∧ pyGeZero v = .ok true)) ∧
    checkTerminationBuses [Val.rat (-1/2)] = .ok false ∧
    checkTerminationBuses [Val.int 0] = .ok false ∧
    checkTerminationBuses [Val.bool false] = .ok false ∧
    checkTerminationBuses [Val.none] = .ok false := by
  refine ⟨?_, by norm_num [checkTerminationBuses, triggerStep, pyTruthy, pyGeZero], rfl, rfl, rfl⟩
  intro v
  simp only [checkTerminationBuses, triggerStep]
  by_cases h : pyTruthy v = true
  · rw [if_pos h]
    cases hg : pyGeZero v with
    | error e => simp [h]
    | ok b => cases b <;> simp [h, checkTerminationBuses]
  · rw [if_neg h]
    simp [h, checkTerminationBuses]

/-- C5: with a non-zero duration the `Timer.timer` transform returns
`now - t_start - duration`, which is negative exactly while less than
`duration` time has elapsed since construction and non-negative exactly
from `duration` onwards; with duration `0` it returns the constant `False`,
which never satisfies the trigger predicate. -/
theorem timer_transform_spec : ∀ now t_start duration : ℚ,
    (duration ≠ 0 →
      timer now t_start duration = .rat (now - t_start - duration) ∧
      (now - t_start - duration < 0 ↔ now - t_start < duration) ∧
      (0 ≤ now - t_start - duration ↔ duration ≤ now - t_start)) ∧
    timer now t_start 0 = .bool false ∧
    checkTerminationBuses [Val.bool false] = .ok false := by
  intro now t_start duration
  refine ⟨fun h => ⟨by simp [timer, h], sub_neg, sub_nonneg⟩, by simp [timer], rfl⟩

theorem timer_transform_spec_witness :
    (3 : ℚ) ≠ 0 ∧ timer 5 1 3 = .rat (5 - 1 - 3) :=
  ⟨by norm_num, ((timer_transform_spec 5 1 3).1 (by norm_num)).1⟩

/-- C3: `dealValuesToBuses` routing — with exactly one output bus the whole
transform result (tuple or not) is written to that bus; with several output
buses a tuple result of matching length is dealt element `i` to bus `i`;
with several output buses a non-tuple result is written identically to
every bus. -/
theorem dealValuesToBuses_distribution :
    (∀ (b : Bus) (values : Val),
      dealValuesToBuses values [b] = .ok [b.set_message values]) ∧
    (∀ (buses : List Bus) (vs : List Val),
      2 ≤ buses.length → vs.length = buses.length →
      dealValuesToBuses (.tuple vs) buses =
        .ok (List.zipWith (fun b v => b.set_message v) buses vs)) ∧
    (∀ (buses : List Bus) (v : Val),
      2 ≤ buses.length → v.isTuple = false →
      dealValuesToBuses v buses = .ok (buses.map (fun b => b.set_message v))) := by
  refine ⟨fun b values => rfl, ?_, ?_⟩
  · intro buses vs h2 hlen
    have h1 : buses.length ≠ 1 := by omega
    simp only [dealValuesToBuses, dealtValues, if_neg h1]
    rw [enumerateDeal_zero vs buses (le_of_eq hlen)]
    simp [hlen]
  · intro buses v h2 hnt
    have h1 : buses.length ≠ 1 := by omega
    have hd : dealtValues v buses = List.replicate buses.length v := by
      cases v <;> simp_all [dealtValues, Val.isTuple, if_neg h1]
    simp only [dealValuesToBuses, hd]
    rw [enumerateDeal_zero _ _ (by simp)]
    simp [zipWith_set_message_replicate]

theorem dealValuesToBuses_distribution_witness :
    dealValuesToBuses (.tuple [Val.int 1, Val.int 2])
        [Bus.mk (Val.int 0) "a", Bus.mk (Val.int 0) "b"] =
      .ok (List.zipWith (fun b v => b.set_message v)
        [Bus.mk (Val.int 0) "a", Bus.mk (Val.int 0) "b"] [Val.int 1, Val.int 2]) ∧
    dealValuesToBuses (Val.int 7) [Bus.mk (Val.int 0) "a", Bus.mk (Val.int 0) "b"] =
      .ok (List.map (fun b => b.set_message (Val.int 7))
        [Bus.mk (Val.int 0) "a", Bus.mk (Val.int 0) "b"]) :=
  ⟨dealValuesToBuses_distribution.2.1
      [Bus.mk (Val.int 0) "a", Bus.mk (Val.int 0) "b"] [Val.int 1, Val.int 2]
      (by decide) rfl,
    dealValuesToBuses_distribution.2.2
      [Bus.mk (Val.int 0) "a", Bus.mk (Val.int 0) "b"] (Val.int 7)
      (by decide) rfl⟩

/-- C9: with several output buses and a tuple result shorter than the bus
count, `dealValuesToBuses` raises no error: it writes tuple element `i`
into bus `i` for each `i` below the tuple length and leaves every later bus
unchanged. -/
theorem dealValuesToBuses_short_tuple :
    ∀ (buses : List Bus) (vs : List Val),
      2 ≤ buses.length → vs.length < buses.length →
      dealValuesToBuses (.tuple vs) buses =
        .ok (List.zipWith (fun b v => b.set_message v) buses vs ++
              buses.drop vs.length) ∧
      (∀ j : Nat, vs.length ≤ j →
        (List.zipWith (fun b v => b.set_message v) buses vs ++
          buses.drop vs.length)[j]? = buses[j]?) ∧
      (∀ (i : Nat) (b : Bus) (v : Val), buses[i]? = some b → vs[i]? = some v →
        (List.zipWith (fun b v => b.set_message v) buses vs ++
          buses.drop vs.length)[i]? = some (b.set_message v)) := by
  intro buses vs h2 hlt
  have h1 : buses.length ≠ 1 := by omega
  have hzlen : (List.zipWith (fun (b : Bus) (v : Val) => b.set_message v) buses vs).length
      = vs.length := by
    simp
    omega
  refine ⟨?_, ?_, ?_⟩
  · simp only [dealValuesToBuses, dealtValues, if_neg h1]
    exact enumerateDeal_zero vs buses (le_of_lt hlt)
  · intro j hj
    rw [List.getElem?_append_right (by omega)]
    rw [List.getElem?_drop, hzlen]
    congr 1
    omega
  · intro i b v hb hv
    have hi : i < vs.length := by
      by_contra hc
      rw [List.getElem?_eq_none (by omega : vs.length ≤ i)] at hv
      exact Option.noConfusion hv
    rw [List.getElem?_append, if_pos (by omega)]
    rw [zipWith_getElem?_set_message, hb, hv]
    rfl

theorem dealValuesToBuses_short_tuple_witness :
    dealValuesToBuses (.tuple [Val.int 9])
        [Bus.mk (Val.int 0) "a", Bus.mk (Val.int 0) "b", Bus.mk (Val.int 0) "c"] =
      .ok (List.zipWith (fun b v => b.set_message v)
        [Bus.mk (Val.int 0) "a", Bus.mk (Val.int 0) "b", Bus.mk (Val.int 0) "c"]
        [Val.int 9] ++
        List.drop 1
          [Bus.mk (Val.int 0) "a", Bus.mk (Val.int 0) "b", Bus.mk (Val.int 0) "c"]) :=
  (dealValuesToBuses_short_tuple
    [Bus.mk (Val.int 0) "a", Bus.mk (Val.int 0) "b", Bus.mk (Val.int 0) "c"]
    [Val.int 9] (by decide) (by decide)).1

/-- C4: every cycle of the node loop emits the termination check as its
first action, before any input read, transform call or output write; a
node whose sole termination bus already holds a triggering value exits the
loop at once, with `termCheck` as the only event of the whole run and its
buses untouched. -/
theorem node_loop_checks_termination_first :
    (∀ (f : List Val → Val) (st : NodeState),
      ((nodeCycle f st).1).head? = some Event.termCheck) ∧
    (∀ (f : List Val → Val) (st : NodeState),
      checkTerminationBuses (collectBusesToValues st.termination_buses) = .ok true →
      nodeCycle f st = ([Event.termCheck], .ok (true, st))) ∧
    (∀ (fuel : Nat) (f : List Val → Val) (st : NodeState) (b : Bus),
      st.termination_buses = [b] → triggerStep b.message = .ok true →
      runNode f (fuel + 1) st = .ok (st, [[Event.termCheck]])) := by
  have hexit : ∀ (f : List Val → Val) (st : NodeState),
      checkTerminationBuses (collectBusesToValues st.termination_buses) = .ok true →
      nodeCycle f st = ([Event.termCheck], .ok (true, st)) := by
    intro f st h
    simp [nodeCycle, h]
  refine ⟨?_, hexit, ?_⟩
  · intro f st
    unfold nodeCycle
    cases h : checkTerminationBuses (collectBusesToValues st.termination_buses) with
    | error e => simp
    | ok b =>
      cases b
      · cases h2 : dealValuesToBuses (f (collectBusesToValues st.input_buses))
            st.output_buses with
        | error e => simp [h2]
        | ok buses2 => simp [h2]
      · simp
  · intro fuel f st b hb htrig
    have hcheck : checkTerminationBuses (collectBusesToValues st.termination_buses) =
        .ok true := by
      rw [hb]
      simp [collectBusesToValues, Bus.get_message, checkTerminationBuses, htrig]
    simp [runNode, hexit f st hcheck]

theorem node_loop_checks_termination_first_witness :
    runNode (fun _ => Val.int 0) 1
        (NodeState.mk [] [] [Bus.mk (Val.int 1) "T"]) =
      .ok (NodeState.mk [] [] [Bus.mk (Val.int 1) "T"], [[Event.termCheck]]) :=
  node_loop_checks_termination_first.2.2 0 (fun _ => Val.int 0)
    (NodeState.mk [] [] [Bus.mk (Val.int 1) "T"]) (Bus.mk (Val.int 1) "T")
    rfl (by decide)

/-- C1 (code bug): the wire `set` branch of `handle_client` calls the
async `Server.set` without `await` (`rossros_networking.py`, line 23), so a
set request is acknowledged with `OK` while the store stays unchanged, and
`set("k", 42)` followed by `get("k")` on a fresh server answers `OK` with a
null value instead of `42`.  Running the coroutine body (`Server.set`, as
an awaited call would) yields the claimed `42`; the missing-key half of the
claim does hold: `get` on an absent key answers `OK` with null, not an
error response. -/
theorem keyValueServer_set_request_dropped :
    (handleCommand (.set "k" (.int 42)) ([] : ServerState)).2 = .ok ∧
    (handleCommand (.set "k" (.int 42)) ([] : ServerState)).1 = ([] : ServerState) ∧
    (handleCommand (.get "k")
      (handleCommand (.set "k" (.int 42)) ([] : ServerState)).1).2 = .okValue Val.none ∧
    (handleCommand (.get "k") (Server.set [] "k" (.int 42))).2 = .okValue (.int 42) ∧
    (handleCommand (.get "missing") ([] : ServerState)).2 = .okValue Val.none :=
  ⟨rfl, rfl, rfl, rfl, rfl⟩

/-- C6 (counterexample): the "no value" marker of `Client.get` is `None`,
and a server store holding `None` under a key — a present but falsy value —
makes `Client.get` return that very marker, so the marker is not distinct
from every present-but-falsy stored value. -/
theorem clientGet_none_marker_collision :
    Client.get handleCommand [("k", Val.none)] "k" = Val.none ∧
    Client.get handleCommand ([] : ServerState) "k" = Val.none ∧
    pyTruthy Val.none = false :=
  ⟨rfl, rfl, rfl⟩

/-- C6 (amended): `Client.get` on a key absent from the server's store
returns the "no value" marker `None`; for a key present in the store with
value `v` it returns `v` itself, so every present-but-falsy stored value
OTHER THAN `None` itself (for example a stored `False` or `0`) is distinct
from the marker, while a stored `None` is indistinguishable from it.
(Values reach the store only through a directly awaited `Server.set`, as
`NetBus` performs; a wire set request never stores, see C1.) -/
theorem clientGet_missing_vs_falsy :
    (∀ (s : ServerState) (k : String), dictGet s k = Option.none →
      Client.get handleCommand s k = Val.none) ∧
    (∀ (s : ServerState) (k : String) (v : Val), dictGet s k = some v →
      Client.get handleCommand s k = v) ∧
    (∀ (s : ServerState) (k : String) (v : Val), dictGet s k = some v →
      v ≠ Val.none → Client.get handleCommand s k ≠ Val.none) ∧
    pyTruthy (Val.bool false) = false ∧
    pyTruthy (Val.int 0) = false := by
  have hstored : ∀ (s : ServerState) (k : String) (v : Val), dictGet s k = some v →
      Client.get handleCommand s k = v := by
    intro s k v h
    simp [Client.get, Client.send_command, handleCommand, Server.get, h]
  refine ⟨?_, hstored, ?_, rfl, rfl⟩
  · intro s k h
    simp [Client.get, Client.send_command, handleCommand, Server.get, h]
  · intro s k v h hv
    rw [hstored s k v h]
    exact hv

theorem clientGet_missing_vs_falsy_witness :
    Client.get handleCommand ([] : ServerState) "k" = Val.none ∧
    Client.get handleCommand [("k", Val.bool false)] "k" = Val.bool false ∧
    Client.get handleCommand [("k", Val.bool false)] "k" ≠ Val.none :=
  ⟨clientGet_missing_vs_falsy.1 [] "k" rfl,
    clientGet_missing_vs_falsy.2.1 [("k", Val.bool false)] "k" (Val.bool false) rfl,
    clientGet_missing_vs_falsy.2.2.1 [("k", Val.bool false)] "k" (Val.bool false) rfl
      (fun h => Val.noConfusion h)⟩

/-- C10: `Client.set` discards the server's response entirely — replacing
the response of an arbitrary responder by any other response, OK or ERROR,
leaves `Client.set`'s behaviour unchanged — and it produces no value from
the response.  Against this repository's server the resulting state is the
unchanged input state, because `handle_client` drops the store update of a
wire set request (missing `await`, see C1).  It is a total function, so it
raises nothing. -/
theorem client_set_discards_response :
    (∀ (respond : Command → ServerState → ServerState × Response)
        (rsp : Response) (s : ServerState) (k : String) (v : Val),
      Client.set (fun c t => ((respond c t).1, rsp)) s k v =
        Client.set respond s k v) ∧
    (∀ (s : ServerState) (k : String) (v : Val),
      Client.set handleCommand s k v = s) :=
  ⟨fun _ _ _ _ _ => rfl, fun _ _ _ => rfl⟩


/-- C7 (counterexample): the Printer pads each column on the RIGHT of the
rendered text, not on the left — for the numeric input `1` the printed line
carries the nine padding spaces after `" 1"`, which differs from the line
the claim's left-padded-to-12 layout would produce. -/
theorem print_bus_not_left_padded :
    print_bus "P:" [Val.int 1] = .ok ("P:" ++ " " ++ " 1" ++ spaces 9) ∧
    ("P:" ++ " " ++ " 1" ++ spaces 9 : String) ≠ claimPrinterLine "P:" [" 1"] := by
  constructor
  · decide
  · decide

/-- C7 (amended): `print_bus` renders `None` as the text `"None"`, passes
strings through verbatim, renders a number with 4 significant digits and a
space prepended exactly when it is non-negative, and appends each rendered
value to the line as a separating space, the text, and then trailing
spaces on the right, giving a 12-character column whenever the rendered
text is at most 11 characters; the line starts from the configured print
prefix. -/
theorem print_bus_layout :
    (∀ out : String, print_bus out [] = .ok out) ∧
    (∀ (out : String) (msg : Val) (rest : List Val) (s : String),
      formatMsg msg = .ok s →
      print_bus out (msg :: rest) =
        print_bus (out ++ " " ++ s ++ spaces (11 - s.length)) rest) ∧
    (∀ s : String, s.length ≤ 11 →
      (" " ++ s ++ spaces (11 - s.length)).length = 12) ∧
    formatMsg Val.none = .ok "None" ∧
    (∀ s : String, formatMsg (.str s) = .ok s) ∧
    formatMsg (.int 12345) = .ok " 1.234e+04" ∧
    formatMsg (.int (-7)) = .ok "-7" ∧
    formatMsg (.rat (mkRat (-1) 2)) = .ok "-0.5" ∧
    formatMsg (.int 3) = .ok " 3" := by
  refine ⟨fun out => rfl, ?_, ?_, rfl, fun s => rfl,
    by decide, by decide, by decide, by decide⟩
  · intro out msg rest s h
    simp [print_bus, h]
  · intro s h
    simp only [String.length_append, spaces_length,
      show String.length " " = 1 from rfl]
    omega

theorem print_bus_layout_witness :
    print_bus "P: " [Val.none] =
      print_bus ("P: " ++ " " ++ "None" ++ spaces (11 - "None".length)) [] ∧
    (" " ++ "None" ++ spaces (11 - "None".length)).length = 12 :=
  ⟨print_bus_layout.2.1 "P: " Val.none [] "None" print_bus_layout.2.2.2.1,
    print_bus_layout.2.2.1 "None" (by decide)⟩
